import Mathlib

/-!
Verification of the scanoss pre-commit hooks (`src/hooks/check_open_source_software.py`,
`src/hooks/check_undeclared_software.py`, `src/hooks/utils.py`).

The Python results maps are JSON objects, i.e. Python `dict`s from file-path strings to
per-file result records.  We embed them as association lists `List (String × V)` together
with the Python `dict` assignment operation (`d[k] = v`): replace the value in place when
the key is present (insertion order kept), append otherwise.  File contents, subprocess
exit codes and the hooks' control flow are embedded explicitly; external subprocess
behaviour (scanner output, exit codes, whether a path is a file) is supplied as
environment data.
-/

namespace ScanossHooks

/-- The keys of an association-list map, in order (Python `dict` iteration order). -/
def dictKeys {V : Type} (m : List (String × V)) : List String :=
  m.map Prod.fst

/-- Python `dict` assignment `m[k] = v`: if `k` is already a key, the value at its (unique,
by the dict invariant) occurrence is replaced in place; otherwise the pair is appended at
the end, matching Python insertion-order semantics. -/
def dictInsert {V : Type} (m : List (String × V)) (k : String) (v : V) :
    List (String × V) :=
  match m with
  | [] => [(k, v)]
  | (k0, v0) :: t => if k0 = k then (k, v) :: t else (k0, v0) :: dictInsert t k v

/-- Python `dict` lookup `m.get(k)`: the value at the first matching key, if any. -/
def dictLookup {V : Type} (m : List (String × V)) (k : String) : Option V :=
  match m with
  | [] => none
  | (k0, v) :: rest => if k0 = k then some v else dictLookup rest k

/-- The pure core of `merge_results` (check_open_source_software.py, lines 119-120):
`for file_path, file_results in new_results.items(): combined_results[file_path] = file_results`. -/
def merge_results {V : Type} (combined_results new_results : List (String × V)) :
    List (String × V) :=
  new_results.foldl (fun acc p => dictInsert acc p.1 p.2) combined_results

/-- A results file on disk, as the hooks see it through `json.load`: either a JSON
object that parses to a path-keyed map, or content whose parse raises `JSONDecodeError`. -/
inductive FileContent (V : Type) where
  | valid (entries : List (String × V)) : FileContent V
  | malformed : FileContent V
deriving DecidableEq

/-- The two files `merge_results` touches: `.scanoss/results.json` (accumulated) and
`.scanoss/temp_results.json` (the new batch); `none` means the path does not exist. -/
structure FSState (V : Type) where
  resultsFile : Option (FileContent V)
  tempFile : Option (FileContent V)
deriving DecidableEq

/-- Outcome of one `merge_results()` call: the file state afterwards, and whether
`logging.error("Error parsing temporary results: ...")` fired. -/
structure MergeOutcome (V : Type) where
  fs : FSState V
  errorLogged : Bool
deriving DecidableEq

/-- The function `merge_results` (check_open_source_software.py, lines 103-128) as a total state
transformer.  A missing or malformed accumulated file is treated as the empty map; a
missing temp file means nothing happens; a malformed temp file raises `JSONDecodeError`
inside the `try`, which is caught and logged before the combined map is ever written, so
the accumulated file and the temp file are both left as they were.  On a valid temp file
the overlaid map is written back and the temp file is unlinked. -/
def merge_results_fs {V : Type} (s : FSState V) : MergeOutcome V :=
  let combined_results : List (String × V) :=
    match s.resultsFile with
    | some (FileContent.valid m) => m
    | some FileContent.malformed => []
    | none => []
  match s.tempFile with
  | none => ⟨s, false⟩
  | some FileContent.malformed => ⟨s, true⟩
  | some (FileContent.valid new_results) =>
      ⟨⟨some (FileContent.valid (merge_results combined_results new_results)), none⟩, false⟩

/-- Python `str.startswith`: the prefix's characters are an initial segment of the
string's characters. -/
def pyStartsWith (s pre : String) : Bool :=
  pre.data.isPrefixOf s.data

/-- The `SENSITIVE_FLAGS` set of `sanitize_scan_command` (check_undeclared_software.py,
line 102).  The two membership tests in the loop body are mutually exclusive for any
argument, so the set's iteration order is irrelevant; we fix the literal order. -/
def SENSITIVE_FLAGS : List String := ["--key", "--proxy"]

/-- One iteration of the inner `for flag in SENSITIVE_FLAGS` loop of
`sanitize_scan_command` (lines 107-112): `arg` is read from the original `command`;
an exact flag match masks the next position of the copy (guarded against running past
the end), and a `flag=` prefix match masks the value part at the current position. -/
def applySensitiveFlag (command : List String) (i : Nat) (sanitized : List String)
    (flag : String) : List String :=
  let arg := command.getD i ""
  if arg = flag then
    (if i + 1 < sanitized.length then sanitized.set (i + 1) "*****" else sanitized)
  else if pyStartsWith arg (flag ++ "=") then
    sanitized.set i (flag ++ "=*****")
  else
    sanitized

/-- Function `sanitize_scan_command` (check_undeclared_software.py, lines 92-113): start from a
copy of the command and run the two nested loops, `for i, arg in enumerate(command)`
outside and `for flag in SENSITIVE_FLAGS` inside. -/
def sanitize_scan_command (command : List String) : List String :=
  (List.range command.length).foldl
    (fun sanitized i => SENSITIVE_FLAGS.foldl (applySensitiveFlag command i) sanitized)
    command

/-- Environment of one run of the advanced hook `check_undeclared_software.main`:
the click options (each `none`/`false` when absent), and the behaviour of the external
world (whether the scan subprocess raises, whether creating the output directory or
writing the output file fails, and the `scanoss-py results` exit code and whether its
stdout parses as JSON). -/
structure UndeclaredHookEnv where
  apiUrl : Option String
  apiKey : Option String
  proxyUrl : Option String
  pac : Option String
  caCert : Option String
  ignoreCertErrors : Bool
  useRest : Bool
  debug : Bool
  scanRaises : Bool
  mkdirFails : Bool
  writeFails : Bool
  resultsCmdExitCode : Int
  resultsCmdStdoutParses : Bool
deriving DecidableEq

/-- The scan command built by `check_undeclared_software.main` (lines 239-269). -/
def build_scan_cmd (staged_files : List String) (env : UndeclaredHookEnv) : List String :=
  ["scanoss-py", "scan", "--no-wfp-output", "--files"] ++ staged_files
    ++ (match env.apiUrl with | some u => ["--apiurl", u] | none => [])
    ++ (match env.apiKey with | some k => ["--key", k] | none => [])
    ++ (match env.proxyUrl with | some p => ["--proxy", p] | none => [])
    ++ (match env.pac with | some p => ["--pac", p] | none => [])
    ++ (match env.caCert with | some c => ["--ca-cert", c] | none => [])
    ++ (if env.debug then ["--debug"] else [])
    ++ (if env.ignoreCertErrors then ["--ignore-cert-errors"] else [])
    ++ (if env.useRest then ["--rest"] else [])

/-- Observable outcome of one run of `check_undeclared_software.main`: the process exit
code, whether the scanner subprocess was invoked, the exact command executed and the
command string that was logged (when the hook got that far), whether the
`SCANOSS 'results' command failed with exit code ...` error was logged, and whether the
`Failed to parse JSON response` error was logged. -/
structure UndeclaredHookResult where
  exitCode : Int
  scannerInvoked : Bool
  executedScanCmd : Option (List String)
  loggedScanCmd : Option (List String)
  toolErrorLogged : Bool
  parseErrorLogged : Bool
deriving DecidableEq

/-- Function `check_undeclared_software.main` (lines 212-330), given the staged files
and the environment: empty staged set exits 0 before any subprocess; then the scan
command is built, its sanitized form logged and the original executed; scan, mkdir and
write failures exit 1; the `results` inspection exits 1 on pending (or unparseable)
output, propagates any other non-zero exit code after logging it, and exits 0 otherwise. -/
def check_undeclared_software_main (staged_files : List String)
    (env : UndeclaredHookEnv) : UndeclaredHookResult :=
  if staged_files.isEmpty then
    ⟨0, false, none, none, false, false⟩
  else
    let cmd := build_scan_cmd staged_files env
    let logged := sanitize_scan_command cmd
    if env.scanRaises then ⟨1, true, some cmd, some logged, false, false⟩
    else if env.mkdirFails then ⟨1, true, some cmd, some logged, false, false⟩
    else if env.writeFails then ⟨1, true, some cmd, some logged, false, false⟩
    else if env.resultsCmdExitCode = 1 then
      if env.resultsCmdStdoutParses then ⟨1, true, some cmd, some logged, false, false⟩
      else ⟨1, true, some cmd, some logged, false, true⟩
    else if env.resultsCmdExitCode ≠ 0 then
      ⟨env.resultsCmdExitCode, true, some cmd, some logged, true, false⟩
    else ⟨0, true, some cmd, some logged, false, false⟩

/-- Environment of one run of the simple hook `check_open_source_software.main`:
the pre-existing file-system state and the behaviour of the two subprocesses. -/
structure SimpleHookEnv (V : Type) where
  resultsDirExists : Bool
  resultsFile : Option (FileContent V)
  tempFile : Option (FileContent V)
  scanExitCode : Int
  scanTempOutput : Option (FileContent V)
  resultsCmdRaises : Bool
  resultsCmdExitCode : Int
  resultsCmdStdoutParses : Bool

/-- Observable outcome of one run of `check_open_source_software.main`. -/
structure SimpleHookResult (V : Type) where
  exitCode : Int
  scannerInvoked : Bool
  resultsDirExists : Bool
  resultsFile : Option (FileContent V)
  tempFile : Option (FileContent V)
  mergeErrorLogged : Bool
  presentErrorLogged : Bool

/-- Function `check_open_source_software.main` (lines 58-88), given the `filenames`
arguments and the environment.  In order: `maybe_setup_results_dir` creates `.scanoss`
(`mkdir(exist_ok=True)`), `maybe_remove_old_results` unlinks `.scanoss/results.json` if
it is a file, an empty filename list logs and exits 0, `run_scan` exits 1 on a non-zero
scanner exit (otherwise the scanner has written the temp file), `merge_results` folds the
temp file into the results file, and `present_results` exits 1 when the inspection
subprocess returns 1 (or when anything in it raises, e.g. `json.loads` on its stdout),
and otherwise falls through to `exit(0)` — any other inspection exit code is ignored. -/
def check_open_source_software_main {V : Type} (filenames : List String)
    (env : SimpleHookEnv V) : SimpleHookResult V :=
  if filenames.isEmpty then
    ⟨0, false, true, none, env.tempFile, false, false⟩
  else if env.scanExitCode ≠ 0 then
    ⟨1, true, true, none, env.tempFile, false, false⟩
  else
    let merged := merge_results_fs ⟨none, env.scanTempOutput⟩
    if env.resultsCmdRaises then
      ⟨1, true, true, merged.fs.resultsFile, merged.fs.tempFile, merged.errorLogged, true⟩
    else if env.resultsCmdExitCode = 1 then
      if env.resultsCmdStdoutParses then
        ⟨1, true, true, merged.fs.resultsFile, merged.fs.tempFile, merged.errorLogged, false⟩
      else
        ⟨1, true, true, merged.fs.resultsFile, merged.fs.tempFile, merged.errorLogged, true⟩
    else
      ⟨0, true, true, merged.fs.resultsFile, merged.fs.tempFile, merged.errorLogged, false⟩

/-- Function `set_bom_settings` (utils.py, lines 30-46).  `resolve` models `Path(...).resolve()`
and `isFile` models `Path.is_file()`.  A Python `Path` object is always truthy, so the
`settings_file_path and settings_file_path.is_file()` guard reduces to the `None` check
composed with `is_file()`. -/
def set_bom_settings (scan_cmd : List String) (settings_file sbom_file : Option String)
    (resolve : String → String) (isFile : String → Bool) : List String :=
  let settings_file_path := settings_file.map resolve
  let legacy_sbom_file_path := sbom_file.map resolve
  if (match settings_file_path with | some p => isFile p | none => false) then
    scan_cmd ++ ["--settings", settings_file_path.getD ""]
  else if (match legacy_sbom_file_path with | some p => isFile p | none => false) then
    scan_cmd ++ ["--identify", legacy_sbom_file_path.getD "", "-F", "512"]
  else
    scan_cmd

/-- Closed form of `sanitize_scan_command` at position `i`: a token of the form
`--key=...`/`--proxy=...` has its value part masked; otherwise a token directly following
a literal `--key` or `--proxy` becomes the mask string; every other token is unchanged. -/
def sanitizedToken (command : List String) (i : Nat) : String :=
  if pyStartsWith (command.getD i "") "--key=" then "--key=*****"
  else if pyStartsWith (command.getD i "") "--proxy=" then "--proxy=*****"
  else if 0 < i ∧ (command.getD (i - 1) "" = "--key" ∨ command.getD (i - 1) "" = "--proxy")
    then "*****"
  else command.getD i ""

/-- One iteration of the outer `for i, arg in enumerate(command)` loop. -/
def sanitizeStep (command : List String) (sanitized : List String) (i : Nat) :
    List String :=
  SENSITIVE_FLAGS.foldl (applySensitiveFlag command i) sanitized

/-- The state of the sanitized copy after the first `m` iterations of the outer loop. -/
def sanitizePrefixState (command : List String) (m : Nat) : List String :=
  (List.range m).foldl (sanitizeStep command) command

theorem dictLookup_eq_none_iff {V : Type} (m : List (String × V)) (k : String) :
    dictLookup m k = none ↔ k ∉ dictKeys m := by
  induction m with
  | nil => simp [dictLookup, dictKeys]
  | cons p t ih =>
    obtain ⟨k0, v⟩ := p
    by_cases h : k0 = k
    · subst h
      simp [dictLookup, dictKeys]
    · simp only [dictLookup, dictKeys, List.map_cons, List.mem_cons, if_neg h] at ih ⊢
      rw [ih]
      constructor
      · rintro hk (rfl | hk2)
        · exact h rfl
        · exact hk hk2
      · exact fun hk hk2 => hk (Or.inr hk2)

theorem dictLookup_dictInsert {V : Type} (m : List (String × V)) (k k' : String) (v : V) :
    dictLookup (dictInsert m k v) k' =
      if k = k' then some v else dictLookup m k' := by
  induction m with
  | nil => simp [dictInsert, dictLookup]
  | cons p t ih =>
    obtain ⟨k0, v0⟩ := p
    by_cases h0 : k0 = k
    · subst h0
      by_cases h : k0 = k'
      · subst h
        simp [dictInsert, dictLookup]
      · simp [dictInsert, dictLookup, h]
    · by_cases h : k0 = k'
      · subst h
        have hkk : k ≠ k0 := fun h => h0 h.symm
        simp [dictInsert, dictLookup, h0, hkk]
      · simp [dictInsert, dictLookup, h0, h, ih]

theorem dictLookup_merge_results {V : Type} (S B : List (String × V)) (k : String)
    (hB : (dictKeys B).Nodup) :
    dictLookup (merge_results S B) k =
      (dictLookup B k).orElse (fun _ => dictLookup S k) := by
  induction B generalizing S with
  | nil => simp [merge_results, dictLookup, Option.orElse]
  | cons p t ih =>
    obtain ⟨k0, v0⟩ := p
    have hcons : dictKeys ((k0, v0) :: t) = k0 :: dictKeys t := rfl
    rw [hcons] at hB
    have hk0 : k0 ∉ dictKeys t := (List.nodup_cons.mp hB).1
    have ht : (dictKeys t).Nodup := (List.nodup_cons.mp hB).2
    have hstep : merge_results S ((k0, v0) :: t) =
        merge_results (dictInsert S k0 v0) t := rfl
    rw [hstep, ih _ ht]
    by_cases h : k0 = k
    · subst h
      have hnone : dictLookup t k0 = none := (dictLookup_eq_none_iff t k0).mpr hk0
      simp [dictLookup, hnone, dictLookup_dictInsert, Option.orElse]
    · simp [dictLookup, h, dictLookup_dictInsert, Option.orElse]

theorem mem_dictKeys_of_mem {V : Type} {B : List (String × V)} {k : String} {v : V}
    (h : (k, v) ∈ B) : k ∈ dictKeys B :=
  List.mem_map.mpr ⟨(k, v), h, rfl⟩

theorem mem_dictKeys_of_lookup_some {V : Type} {B : List (String × V)} {k : String} {v : V}
    (h : dictLookup B k = some v) : k ∈ dictKeys B := by
  by_contra hmem
  rw [(dictLookup_eq_none_iff B k).mpr hmem] at h
  cases h

theorem dictLookup_of_mem_nodup {V : Type} {B : List (String × V)} {k : String} {v : V}
    (hB : (dictKeys B).Nodup) (h : (k, v) ∈ B) : dictLookup B k = some v := by
  induction B with
  | nil => cases h
  | cons p t ih =>
    obtain ⟨k0, v0⟩ := p
    have hcons : dictKeys ((k0, v0) :: t) = k0 :: dictKeys t := rfl
    rw [hcons] at hB
    rcases List.mem_cons.mp h with heq | hmem
    · obtain ⟨rfl, rfl⟩ := Prod.mk.injEq .. ▸ heq
      simp [dictLookup]
    · have hk0 : k0 ∉ dictKeys t := (List.nodup_cons.mp hB).1
      have hne : k0 ≠ k := fun he => hk0 (he ▸ mem_dictKeys_of_mem hmem)
      simp only [dictLookup, if_neg hne]
      exact ih (List.nodup_cons.mp hB).2 hmem

theorem dictInsert_of_lookup_eq {V : Type} (m : List (String × V)) (k : String) (v : V)
    (h : dictLookup m k = some v) : dictInsert m k v = m := by
  induction m with
  | nil => cases h
  | cons p t ih =>
    obtain ⟨k0, v0⟩ := p
    by_cases h0 : k0 = k
    · subst h0
      have hv : v0 = v := by simpa [dictLookup] using h
      subst hv
      simp [dictInsert]
    · simp only [dictLookup, if_neg h0] at h
      simp [dictInsert, h0, ih h]

theorem merge_results_of_lookup {V : Type} (M B : List (String × V))
    (h : ∀ p ∈ B, dictLookup M p.1 = some p.2) : merge_results M B = M := by
  induction B with
  | nil => rfl
  | cons p t ih =>
    have hstep : merge_results M (p :: t) = merge_results (dictInsert M p.1 p.2) t := rfl
    rw [hstep, dictInsert_of_lookup_eq M p.1 p.2 (h p (List.mem_cons_self p t))]
    exact ih fun q hq => h q (List.mem_cons_of_mem p hq)

/-- C1: merging overlays the new batch onto the accumulated map keyed by file path:
for any path among the batch's keys (in particular any path present in both maps) the
merged map carries the batch's record, and for any path not among the batch's keys the
merged map carries the accumulated map's record unchanged. -/
theorem merge_results_overlays {V : Type} (S B : List (String × V)) (k : String)
    (hB : (dictKeys B).Nodup) :
    (k ∈ dictKeys B → dictLookup (merge_results S B) k = dictLookup B k) ∧
    (k ∉ dictKeys B → dictLookup (merge_results S B) k = dictLookup S k) := by
  rw [dictLookup_merge_results S B k hB]
  constructor
  · intro hmem
    cases hv : dictLookup B k with
    | none => exact absurd ((dictLookup_eq_none_iff B k).mp hv) (by simp [hmem])
    | some v => simp [Option.orElse]
  · intro hmem
    rw [(dictLookup_eq_none_iff B k).mpr hmem]
    simp [Option.orElse]

theorem merge_results_overlays_witness :
    dictLookup (merge_results [("a.c", 1)] [("a.c", 2), ("b.c", 3)]) "a.c" = some 2 ∧
    dictLookup (merge_results [("a.c", 1)] [("a.c", 2), ("b.c", 3)]) "x.c" = none := by
  constructor
  · exact ((merge_results_overlays [("a.c", 1)] [("a.c", 2), ("b.c", 3)] "a.c"
      (by decide)).1 (by decide)).trans (by decide)
  · exact ((merge_results_overlays [("a.c", 1)] [("a.c", 2), ("b.c", 3)] "x.c"
      (by decide)).2 (by decide)).trans (by decide)

/-- C4: merging the same batch a second time into the already-merged result yields the
same map again (literal equality of the stored association list, hence also of the map). -/
theorem merge_results_idempotent {V : Type} (S B : List (String × V))
    (hB : (dictKeys B).Nodup) :
    merge_results (merge_results S B) B = merge_results S B := by
  apply merge_results_of_lookup
  intro p hp
  have hk : p.1 ∈ dictKeys B := mem_dictKeys_of_mem (k := p.1) (v := p.2) (by simpa using hp)
  have hv : dictLookup B p.1 = some p.2 :=
    dictLookup_of_mem_nodup hB (k := p.1) (v := p.2) (by simpa using hp)
  rw [dictLookup_merge_results S B p.1 hB, hv]
  simp [Option.orElse]

theorem merge_results_idempotent_witness :
    merge_results (merge_results [("a.c", 1)] [("a.c", 2), ("b.c", 3)]) [("a.c", 2), ("b.c", 3)] =
      merge_results [("a.c", 1)] [("a.c", 2), ("b.c", 3)] :=
  merge_results_idempotent [("a.c", 1)] [("a.c", 2), ("b.c", 3)] (by decide)

/-- C5: when two batches touch disjoint path sets, merging them in either order into the
accumulated map yields the same final map (the same record at every path). -/
theorem merge_results_comm_of_disjoint {V : Type} (S B1 B2 : List (String × V))
    (h1 : (dictKeys B1).Nodup) (h2 : (dictKeys B2).Nodup)
    (hd : ∀ k ∈ dictKeys B1, k ∉ dictKeys B2) (k : String) :
    dictLookup (merge_results (merge_results S B1) B2) k =
      dictLookup (merge_results (merge_results S B2) B1) k := by
  rw [dictLookup_merge_results (merge_results S B1) B2 k h2,
    dictLookup_merge_results S B1 k h1,
    dictLookup_merge_results (merge_results S B2) B1 k h1,
    dictLookup_merge_results S B2 k h2]
  cases hv2 : dictLookup B2 k with
  | none =>
    cases hv1 : dictLookup B1 k with
    | none => simp [Option.orElse]
    | some v1 => simp [Option.orElse]
  | some v2 =>
    have hmem2 : k ∈ dictKeys B2 := mem_dictKeys_of_lookup_some hv2
    have hmem1 : k ∉ dictKeys B1 := fun hm => hd k hm hmem2
    rw [(dictLookup_eq_none_iff B1 k).mpr hmem1]
    simp [Option.orElse]

theorem merge_results_comm_of_disjoint_witness :
    dictLookup
        (merge_results (merge_results [("a.c", 1)] [("b.c", 2)]) [("c.c", 3)]) "b.c" =
      dictLookup
        (merge_results (merge_results [("a.c", 1)] [("c.c", 3)]) [("b.c", 2)]) "b.c" :=
  merge_results_comm_of_disjoint [("a.c", 1)] [("b.c", 2)] [("c.c", 3)]
    (by decide) (by decide) (by decide) "b.c"

/-- C2: when the temporary results file does not parse as JSON, the merge logs the error,
leaves the accumulated results file exactly as it was (it is never opened for writing),
leaves the temp file in place, and returns normally instead of raising (totality of
`merge_results_fs` embeds the fact that the `JSONDecodeError` is caught). -/
theorem merge_results_malformed_temp_noop {V : Type} (s : FSState V)
    (h : s.tempFile = some FileContent.malformed) :
    (merge_results_fs s).fs.resultsFile = s.resultsFile ∧
    (merge_results_fs s).fs.tempFile = s.tempFile ∧
    (merge_results_fs s).errorLogged = true := by
  obtain ⟨r, t⟩ := s
  cases h
  exact ⟨rfl, rfl, rfl⟩

theorem merge_results_malformed_temp_noop_witness :
    (merge_results_fs (V := Nat)
        ⟨some (FileContent.valid [("a.c", 1)]), some FileContent.malformed⟩).fs.resultsFile =
      some (FileContent.valid [("a.c", 1)]) ∧
    (merge_results_fs (V := Nat)
        ⟨some (FileContent.valid [("a.c", 1)]), some FileContent.malformed⟩).fs.tempFile =
      some FileContent.malformed ∧
    (merge_results_fs (V := Nat)
        ⟨some (FileContent.valid [("a.c", 1)]), some FileContent.malformed⟩).errorLogged =
      true := by
  have h := merge_results_malformed_temp_noop (V := Nat)
    ⟨some (FileContent.valid [("a.c", 1)]), some FileContent.malformed⟩ rfl
  exact ⟨h.1.trans rfl, h.2.1.trans rfl, h.2.2⟩

/-- C7: with an empty set of files to scan, both hooks exit 0 and never invoke the
external scanner subprocess, whatever the rest of the environment looks like. -/
theorem empty_fileset_exits_zero_without_scan {V : Type} (envS : SimpleHookEnv V)
    (envU : UndeclaredHookEnv) :
    (check_open_source_software_main [] envS).exitCode = 0 ∧
    (check_open_source_software_main [] envS).scannerInvoked = false ∧
    (check_undeclared_software_main [] envU).exitCode = 0 ∧
    (check_undeclared_software_main [] envU).scannerInvoked = false :=
  ⟨rfl, rfl, rfl, rfl⟩

/-- C9: even on the empty-filenames early exit 0, the simple hook has already run
`maybe_setup_results_dir` and `maybe_remove_old_results`: afterwards the results
directory exists and the accumulated results file is gone, regardless of the prior
file-system state. -/
theorem empty_fileset_early_exit_side_effects {V : Type} (env : SimpleHookEnv V) :
    (check_open_source_software_main [] env).exitCode = 0 ∧
    (check_open_source_software_main [] env).resultsDirExists = true ∧
    (check_open_source_software_main [] env).resultsFile = none :=
  ⟨rfl, rfl, rfl⟩

/-- C3 counterexample: in the simple hook, `present_results` only handles inspection
exit code 1; on exit code 2 it falls through, nothing is logged, and `main` reaches its
final `exit(0)` — the hook exits 0 instead of propagating 2. -/
theorem present_results_exit_code_not_propagated :
    (check_open_source_software_main (V := Nat) ["a.c"]
        ⟨false, none, none, 0, some (FileContent.valid [("a.c", 1)]), false, 2, true⟩).exitCode
      = 0 ∧
    (check_open_source_software_main (V := Nat) ["a.c"]
        ⟨false, none, none, 0, some (FileContent.valid [("a.c", 1)]), false, 2, true⟩).exitCode
      ≠ 2 ∧
    (check_open_source_software_main (V := Nat) ["a.c"]
        ⟨false, none, none, 0, some (FileContent.valid [("a.c", 1)]), false, 2, true⟩).presentErrorLogged
      = false := by
  refine ⟨rfl, by decide, rfl⟩

/-- C3 (amended): in the advanced hook `check_undeclared_software`, whenever the
results-inspection subprocess exits with a code that is neither 0 nor 1, the hook logs
the tool's error output and exits with exactly that code; the simple hook ignores such
codes and exits 0. -/
theorem undeclared_inspect_error_propagates (staged_files : List String)
    (env : UndeclaredHookEnv) (hne : staged_files ≠ [])
    (hscan : env.scanRaises = false) (hmkdir : env.mkdirFails = false)
    (hwrite : env.writeFails = false)
    (h0 : env.resultsCmdExitCode ≠ 0) (h1 : env.resultsCmdExitCode ≠ 1) :
    (check_undeclared_software_main staged_files env).exitCode = env.resultsCmdExitCode ∧
    (check_undeclared_software_main staged_files env).toolErrorLogged = true := by
  have hempty : staged_files.isEmpty = false := by
    cases staged_files with
    | nil => exact absurd rfl hne
    | cons a t => rfl
  unfold check_undeclared_software_main
  rw [hempty]
  simp [hscan, hmkdir, hwrite, h0, h1]

theorem undeclared_inspect_error_propagates_witness :
    (check_undeclared_software_main ["a.c"]
        ⟨none, none, none, none, none, false, false, false, false, false, false, 2, true⟩).exitCode
      = 2 ∧
    (check_undeclared_software_main ["a.c"]
        ⟨none, none, none, none, none, false, false, false, false, false, false, 2, true⟩).toolErrorLogged
      = true := by
  have h := undeclared_inspect_error_propagates ["a.c"]
    ⟨none, none, none, none, none, false, false, false, false, false, false, 2, true⟩
    (by decide) rfl rfl rfl (by decide) (by decide)
  exact ⟨h.1.trans rfl, h.2⟩

/-- C8: if the (resolved) settings file is a file, the scan command is extended with
`--settings` and that path, ignoring the legacy SBOM file; otherwise, if the legacy SBOM
file is a file, the command is extended with `--identify`, that path and `-F 512`;
otherwise the command is returned unchanged. -/
theorem set_bom_settings_precedence (scan_cmd : List String) (sf sb : String)
    (resolve : String → String) (isFile : String → Bool) :
    (isFile (resolve sf) = true →
      set_bom_settings scan_cmd (some sf) (some sb) resolve isFile =
        scan_cmd ++ ["--settings", resolve sf]) ∧
    (isFile (resolve sf) = false → isFile (resolve sb) = true →
      set_bom_settings scan_cmd (some sf) (some sb) resolve isFile =
        scan_cmd ++ ["--identify", resolve sb, "-F", "512"]) ∧
    (isFile (resolve sf) = false → isFile (resolve sb) = false →
      set_bom_settings scan_cmd (some sf) (some sb) resolve isFile = scan_cmd) := by
  unfold set_bom_settings
  exact ⟨fun h => by simp [h], fun h1 h2 => by simp [h1, h2], fun h1 h2 => by simp [h1, h2]⟩

theorem set_bom_settings_precedence_witness :
    set_bom_settings ["scanoss-py", "scan"] (some "scanoss.json") (some "SBOM.json")
        id (fun p => p == "scanoss.json") =
      ["scanoss-py", "scan", "--settings", "scanoss.json"] := by
  have h := (set_bom_settings_precedence ["scanoss-py", "scan"] "scanoss.json" "SBOM.json"
    id (fun p => p == "scanoss.json")).1 (by decide)
  exact h.trans (by decide)

theorem sanitize_scan_command_eq_state (command : List String) :
    sanitize_scan_command command = sanitizePrefixState command command.length := rfl

theorem sanitizeStep_unfold (command s : List String) (i : Nat) :
    sanitizeStep command s i =
      applySensitiveFlag command i (applySensitiveFlag command i s "--key") "--proxy" := rfl

theorem sanitizePrefixState_succ (command : List String) (m : Nat) :
    sanitizePrefixState command (m + 1) =
      sanitizeStep command (sanitizePrefixState command m) m := by
  unfold sanitizePrefixState
  rw [List.range_succ, List.foldl_append]
  rfl

theorem applyFlag_key (command s : List String) (i : Nat) :
    applySensitiveFlag command i s "--key" =
      if command.getD i "" = "--key" then
        (if i + 1 < s.length then s.set (i + 1) "*****" else s)
      else if pyStartsWith (command.getD i "") "--key=" then s.set i "--key=*****"
      else s := rfl

theorem applyFlag_proxy (command s : List String) (i : Nat) :
    applySensitiveFlag command i s "--proxy" =
      if command.getD i "" = "--proxy" then
        (if i + 1 < s.length then s.set (i + 1) "*****" else s)
      else if pyStartsWith (command.getD i "") "--proxy=" then s.set i "--proxy=*****"
      else s := rfl

theorem getD_set_ne {α : Type} (l : List α) (i j : Nat) (a d : α) (h : i ≠ j) :
    (l.set i a).getD j d = l.getD j d := by
  simp [List.getD_eq_getElem?_getD, List.getElem?_set, h]

theorem getD_set_eq {α : Type} (l : List α) (i : Nat) (a d : α) (h : i < l.length) :
    (l.set i a).getD i d = a := by
  simp [List.getD_eq_getElem?_getD, List.getElem?_set, h]

theorem pyStartsWith_key_not_proxy {s : String} (h : pyStartsWith s "--key=" = true) :
    pyStartsWith s "--proxy=" = false := by
  by_contra hc
  rw [Bool.not_eq_false] at hc
  unfold pyStartsWith at h hc
  rw [ List.isPrefixOf_iff_prefix] at h hc
  rcases List.prefix_or_prefix_of_prefix h hc with hp | hp
  · exact absurd hp (by decide)
  · exact absurd hp (by decide)

theorem ne_key_of_starts_key {s : String} (h : pyStartsWith s "--key=" = true) :
    s ≠ "--key" := by
  rintro rfl
  exact absurd h (by decide)

theorem ne_proxy_of_starts_key {s : String} (h : pyStartsWith s "--key=" = true) :
    s ≠ "--proxy" := by
  rintro rfl
  exact absurd h (by decide)

theorem ne_key_of_starts_proxy {s : String} (h : pyStartsWith s "--proxy=" = true) :
    s ≠ "--key" := by
  rintro rfl
  exact absurd h (by decide)

theorem ne_proxy_of_starts_proxy {s : String} (h : pyStartsWith s "--proxy=" = true) :
    s ≠ "--proxy" := by
  rintro rfl
  exact absurd h (by decide)

/-- Loop invariant for `sanitize_scan_command`: after `m` outer iterations the copy has
the command's length; positions before `m` carry their final closed-form value; position
`m` is masked exactly when the previous original token is a sensitive flag (its own
`flag=` rewrite has not happened yet); positions after `m` are untouched. -/
theorem sanitizePrefixState_spec (command : List String) :
    ∀ m, m ≤ command.length →
      (sanitizePrefixState command m).length = command.length ∧
      (∀ j, j < m → (sanitizePrefixState command m).getD j "" = sanitizedToken command j) ∧
      ((sanitizePrefixState command m).getD m "" =
        if 0 < m ∧ m < command.length ∧
            (command.getD (m - 1) "" = "--key" ∨ command.getD (m - 1) "" = "--proxy")
          then "*****" else command.getD m "") ∧
      (∀ j, m < j → (sanitizePrefixState command m).getD j "" = command.getD j "") := by
  intro m
  induction m with
  | zero =>
    intro _
    refine ⟨rfl, fun j hj => absurd hj (Nat.not_lt_zero j), ?_, fun j _ => rfl⟩
    simp [sanitizePrefixState]
  | succ m ih =>
    intro hm
    have hmlt : m < command.length := Nat.lt_of_succ_le hm
    obtain ⟨ihLen, ihDone, ihCur, ihRest⟩ := ih (Nat.le_of_lt hmlt)
    rw [sanitizePrefixState_succ]
    set s : List String := sanitizePrefixState command m with hs
    by_cases hkey : pyStartsWith (command.getD m "") "--key=" = true
    · have hnk : command.getD m "" ≠ "--key" := ne_key_of_starts_key hkey
      have hnp : command.getD m "" ≠ "--proxy" := ne_proxy_of_starts_key hkey
      have hnsp : pyStartsWith (command.getD m "") "--proxy=" = false :=
        pyStartsWith_key_not_proxy hkey
      have hstep : sanitizeStep command s m = s.set m "--key=*****" := by
        rw [sanitizeStep_unfold, applyFlag_key, if_neg hnk, if_pos hkey, applyFlag_proxy,
          if_neg hnp, if_neg (by rw [hnsp]; exact Bool.false_ne_true)]
      refine ⟨?_, ?_, ?_, ?_⟩
      · rw [hstep, List.length_set, ihLen]
      · intro j hj
        rcases Nat.lt_succ_iff_lt_or_eq.mp hj with hj | rfl
        · rw [hstep, getD_set_ne _ _ _ _ _ (Nat.ne_of_lt hj).symm]
          exact ihDone j hj
        · rw [hstep, getD_set_eq _ _ _ _ (by rw [ihLen]; exact hmlt)]
          unfold sanitizedToken
          rw [if_pos hkey]
      · rw [hstep, getD_set_ne _ _ _ _ _ (by omega), ihRest (m + 1) (Nat.lt_succ_self m)]
        rw [if_neg (by
          simp only [Nat.add_sub_cancel]
          rintro ⟨-, -, h | h⟩
          · exact hnk h
          · exact hnp h)]
      · intro j hj
        rw [hstep, getD_set_ne _ _ _ _ _ (by omega)]
        exact ihRest j (by omega)
    · have hkf : pyStartsWith (command.getD m "") "--key=" = false := by
        rw [← Bool.not_eq_true]; exact hkey
      by_cases hproxy : pyStartsWith (command.getD m "") "--proxy=" = true
      · have hnk : command.getD m "" ≠ "--key" := ne_key_of_starts_proxy hproxy
        have hnp : command.getD m "" ≠ "--proxy" := ne_proxy_of_starts_proxy hproxy
        have hstep : sanitizeStep command s m = s.set m "--proxy=*****" := by
          rw [sanitizeStep_unfold, applyFlag_key, if_neg hnk,
            if_neg (by rw [hkf]; exact Bool.false_ne_true),
            applyFlag_proxy, if_neg hnp, if_pos hproxy]
        refine ⟨?_, ?_, ?_, ?_⟩
        · rw [hstep, List.length_set, ihLen]
        · intro j hj
          rcases Nat.lt_succ_iff_lt_or_eq.mp hj with hj | rfl
          · rw [hstep, getD_set_ne _ _ _ _ _ (Nat.ne_of_lt hj).symm]
            exact ihDone j hj
          · rw [hstep, getD_set_eq _ _ _ _ (by rw [ihLen]; exact hmlt)]
            unfold sanitizedToken
            rw [if_neg (by rw [hkf]; exact Bool.false_ne_true), if_pos hproxy]
        · rw [hstep, getD_set_ne _ _ _ _ _ (by omega), ihRest (m + 1) (Nat.lt_succ_self m)]
          rw [if_neg (by
            simp only [Nat.add_sub_cancel]
            rintro ⟨-, -, h | h⟩
            · exact hnk h
            · exact hnp h)]
        · intro j hj
          rw [hstep, getD_set_ne _ _ _ _ _ (by omega)]
          exact ihRest j (by omega)
      · have hpf : pyStartsWith (command.getD m "") "--proxy=" = false := by
          rw [← Bool.not_eq_true]; exact hproxy
        have htok : sanitizedToken command m =
            if 0 < m ∧ (command.getD (m - 1) "" = "--key" ∨ command.getD (m - 1) "" = "--proxy")
            then "*****" else command.getD m "" := by
          unfold sanitizedToken
          rw [if_neg (by rw [hkf]; exact Bool.false_ne_true),
            if_neg (by rw [hpf]; exact Bool.false_ne_true)]
        by_cases hflag : command.getD m "" = "--key" ∨ command.getD m "" = "--proxy"
        · have hstep : sanitizeStep command s m =
              if m + 1 < s.length then s.set (m + 1) "*****" else s := by
            rcases hflag with h | h
            · rw [sanitizeStep_unfold, applyFlag_key, if_pos h, applyFlag_proxy,
                if_neg (by rw [h]; decide), if_neg (by rw [h]; decide)]
            · rw [sanitizeStep_unfold, applyFlag_key, if_neg (by rw [h]; decide),
                if_neg (by rw [h]; decide), applyFlag_proxy, if_pos h]
          have hcond : (0 < m + 1 ∧ m + 1 < command.length ∧
              (command.getD (m + 1 - 1) "" = "--key" ∨
                command.getD (m + 1 - 1) "" = "--proxy")) ↔ m + 1 < command.length := by
            simp only [Nat.add_sub_cancel]
            constructor
            · rintro ⟨-, h, -⟩; exact h
            · intro h; exact ⟨Nat.succ_pos m, h, hflag⟩
          refine ⟨?_, ?_, ?_, ?_⟩
          · rw [hstep]
            by_cases hg : m + 1 < s.length
            · rw [if_pos hg, List.length_set, ihLen]
            · rw [if_neg hg, ihLen]
          · intro j hj
            rcases Nat.lt_succ_iff_lt_or_eq.mp hj with hj | rfl
            · rw [hstep]
              by_cases hg : m + 1 < s.length
              · rw [if_pos hg, getD_set_ne _ _ _ _ _ (by omega)]
                exact ihDone j hj
              · rw [if_neg hg]
                exact ihDone j hj
            · have hsm : (sanitizeStep command s j).getD j "" = s.getD j "" := by
                rw [hstep]
                by_cases hg : j + 1 < s.length
                · rw [if_pos hg, getD_set_ne _ _ _ _ _ (by omega)]
                · rw [if_neg hg]
              rw [hsm, ihCur, htok]
              by_cases hc : 0 < j ∧
                  (command.getD (j - 1) "" = "--key" ∨ command.getD (j - 1) "" = "--proxy")
              · rw [if_pos ⟨hc.1, hmlt, hc.2⟩, if_pos hc]
              · rw [if_neg (by rintro ⟨h1, h2, h3⟩; exact hc ⟨h1, h3⟩), if_neg hc]
          · rw [hstep]
            by_cases hg : m + 1 < s.length
            · rw [if_pos hg, getD_set_eq _ _ _ _ hg, if_pos (hcond.mpr (ihLen ▸ hg))]
            · rw [if_neg hg, ihRest (m + 1) (Nat.lt_succ_self m),
                if_neg (fun hx => hg (ihLen.symm ▸ hcond.mp hx))]
          · intro j hj
            rw [hstep]
            by_cases hg : m + 1 < s.length
            · rw [if_pos hg, getD_set_ne _ _ _ _ _ (by omega)]
              exact ihRest j (by omega)
            · rw [if_neg hg]
              exact ihRest j (by omega)
        · have hnk : command.getD m "" ≠ "--key" := fun h => hflag (Or.inl h)
          have hnp : command.getD m "" ≠ "--proxy" := fun h => hflag (Or.inr h)
          have hstep : sanitizeStep command s m = s := by
            rw [sanitizeStep_unfold, applyFlag_key, if_neg hnk,
              if_neg (by rw [hkf]; exact Bool.false_ne_true),
              applyFlag_proxy, if_neg hnp,
              if_neg (by rw [hpf]; exact Bool.false_ne_true)]
          refine ⟨?_, ?_, ?_, ?_⟩
          · rw [hstep, ihLen]
          · intro j hj
            rcases Nat.lt_succ_iff_lt_or_eq.mp hj with hj | rfl
            · rw [hstep]
              exact ihDone j hj
            · rw [hstep, ihCur, htok]
              by_cases hc : 0 < j ∧
                  (command.getD (j - 1) "" = "--key" ∨ command.getD (j - 1) "" = "--proxy")
              · rw [if_pos ⟨hc.1, hmlt, hc.2⟩, if_pos hc]
              · rw [if_neg (by rintro ⟨h1, h2, h3⟩; exact hc ⟨h1, h3⟩), if_neg hc]
          · rw [hstep, ihRest (m + 1) (Nat.lt_succ_self m)]
            rw [if_neg (by
              simp only [Nat.add_sub_cancel]
              rintro ⟨-, -, h⟩
              exact hflag h)]
          · intro j hj
            rw [hstep]
            exact ihRest j (by omega)

/-- The fully-run loop realizes the closed form at every position, with the length
preserved. -/
theorem sanitize_scan_command_spec (command : List String) :
    (sanitize_scan_command command).length = command.length ∧
    ∀ j, j < command.length →
      (sanitize_scan_command command).getD j "" = sanitizedToken command j := by
  have h := sanitizePrefixState_spec command command.length (Nat.le_refl _)
  rw [sanitize_scan_command_eq_state]
  exact ⟨h.1, h.2.1⟩

theorem pyStartsWith_proxy_not_key {s : String} (h : pyStartsWith s "--proxy=" = true) :
    pyStartsWith s "--key=" = false := by
  by_contra hc
  rw [Bool.not_eq_false] at hc
  have h2 := pyStartsWith_key_not_proxy hc
  rw [h] at h2
  exact Bool.noConfusion h2

theorem undeclared_main_cmds (staged_files : List String) (env : UndeclaredHookEnv)
    (hne : staged_files ≠ []) :
    (check_undeclared_software_main staged_files env).executedScanCmd =
      some (build_scan_cmd staged_files env) ∧
    (check_undeclared_software_main staged_files env).loggedScanCmd =
      some (sanitize_scan_command (build_scan_cmd staged_files env)) := by
  have hempty : staged_files.isEmpty = false := by
    cases staged_files with
    | nil => exact absurd rfl hne
    | cons a t => rfl
  unfold check_undeclared_software_main
  rw [hempty]
  simp only [Bool.false_eq_true, if_false]
  constructor <;> (split_ifs <;> rfl)

/-- C6 counterexample: on `["--key", "--key=abc"]` the token following the literal
`--key` is not replaced by the mask string `*****`; its own `--key=` value-masking,
applied at the later loop iteration, overwrites the mask with `--key=*****`. -/
theorem sanitize_following_token_counterexample :
    sanitize_scan_command ["--key", "--key=abc"] = ["--key", "--key=*****"] ∧
    sanitize_scan_command ["--key", "--key=abc"] ≠ ["--key", "*****"] := by
  constructor
  · decide
  · decide

/-- C6 (amended): sanitization masks the value part of any `--key=...`/`--proxy=...`
token, and replaces the token following a literal `--key` or `--proxy` with the fixed
mask string `*****` unless that token is itself of the `flag=` form (then the value-part
masking applies to it instead); the hook executes the original, unmodified command list
and logs only the sanitized copy. -/
theorem sanitize_scan_command_masks (command : List String) (i : Nat)
    (staged_files : List String) (env : UndeclaredHookEnv)
    (hi : i < command.length) (hne : staged_files ≠ []) :
    (pyStartsWith (command.getD i "") "--key=" = true →
      (sanitize_scan_command command).getD i "" = "--key=*****") ∧
    (pyStartsWith (command.getD i "") "--proxy=" = true →
      (sanitize_scan_command command).getD i "" = "--proxy=*****") ∧
    (0 < i → (command.getD (i - 1) "" = "--key" ∨ command.getD (i - 1) "" = "--proxy") →
      pyStartsWith (command.getD i "") "--key=" = false →
      pyStartsWith (command.getD i "") "--proxy=" = false →
      (sanitize_scan_command command).getD i "" = "*****") ∧
    (check_undeclared_software_main staged_files env).executedScanCmd =
      some (build_scan_cmd staged_files env) ∧
    (check_undeclared_software_main staged_files env).loggedScanCmd =
      some (sanitize_scan_command (build_scan_cmd staged_files env)) := by
  have hspec := (sanitize_scan_command_spec command).2 i hi
  refine ⟨?_, ?_, ?_, (undeclared_main_cmds staged_files env hne).1,
    (undeclared_main_cmds staged_files env hne).2⟩
  · intro h
    rw [hspec]
    unfold sanitizedToken
    rw [if_pos h]
  · intro h
    rw [hspec]
    unfold sanitizedToken
    rw [if_neg (by rw [pyStartsWith_proxy_not_key h]; exact Bool.false_ne_true), if_pos h]
  · intro hpos hflag hk hp
    rw [hspec]
    unfold sanitizedToken
    rw [if_neg (by rw [hk]; exact Bool.false_ne_true),
      if_neg (by rw [hp]; exact Bool.false_ne_true), if_pos ⟨hpos, hflag⟩]

theorem sanitize_scan_command_masks_witness :
    (sanitize_scan_command ["--key", "secret123"]).getD 1 "" = "*****" ∧
    (sanitize_scan_command ["--proxy=http://u:p@host"]).getD 0 "" = "--proxy=*****" := by
  constructor
  · exact (sanitize_scan_command_masks ["--key", "secret123"] 1 ["a.c"]
      ⟨none, none, none, none, none, false, false, false, false, false, false, 0, true⟩
      (by decide) (by decide)).2.2.1 (by decide) (by decide) (by decide) (by decide)
  · exact (sanitize_scan_command_masks ["--proxy=http://u:p@host"] 0 ["a.c"]
      ⟨none, none, none, none, none, false, false, false, false, false, false, 0, true⟩
      (by decide) (by decide)).2.1 (by decide)

/-- C10: sanitization is a total function returning a list of the same length (the
mask-next write is guarded, so a trailing sensitive flag cannot write out of range), and
every position that neither follows a sensitive flag nor is itself a `--key=...` or
`--proxy=...` token is returned unchanged. -/
theorem sanitize_scan_command_shape (command : List String) :
    (sanitize_scan_command command).length = command.length ∧
    (∀ i, i < command.length →
      pyStartsWith (command.getD i "") "--key=" = false →
      pyStartsWith (command.getD i "") "--proxy=" = false →
      (i = 0 ∨ (command.getD (i - 1) "" ≠ "--key" ∧ command.getD (i - 1) "" ≠ "--proxy")) →
      (sanitize_scan_command command).getD i "" = command.getD i "") := by
  refine ⟨(sanitize_scan_command_spec command).1, ?_⟩
  intro i hi hk hp hprev
  rw [(sanitize_scan_command_spec command).2 i hi]
  unfold sanitizedToken
  rw [if_neg (by rw [hk]; exact Bool.false_ne_true),
    if_neg (by rw [hp]; exact Bool.false_ne_true)]
  rw [if_neg (by
    rintro ⟨hpos, hf⟩
    rcases hprev with rfl | ⟨hnk, hnp⟩
    · exact absurd hpos (lt_irrefl 0)
    · exact hf.elim hnk hnp)]

theorem sanitize_scan_command_shape_witness :
    (sanitize_scan_command ["scanoss-py", "--key", "secret"]).length = 3 ∧
    (sanitize_scan_command ["scanoss-py", "--key", "secret"]).getD 0 "" = "scanoss-py" := by
  constructor
  · exact ((sanitize_scan_command_shape ["scanoss-py", "--key", "secret"]).1).trans (by decide)
  · exact (sanitize_scan_command_shape ["scanoss-py", "--key", "secret"]).2 0 (by decide)
      (by decide) (by decide) (Or.inl rfl)

end ScanossHooks
